import Mathlib

/-!
Verification development for the pbip linter program (src/linter.py).

The program discovers folders marked by a `.platform` file, runs two external
linters on them, normalizes the tool outputs into scores, logs the results and
tracks a process-wide success flag that determines the exit status.

Modelling conventions:
* filesystem paths are lists of path components;
* the filesystem is a structure of functions (child directories of a path,
  readability of a path, content of a `.platform` marker, existence of a path);
* Python floats are modelled as exact rationals, `round(x, 2)` as
  round-half-to-even at two decimals (CPython's documented rounding mode);
* raised exceptions are modelled with `Except`; the external linter
  subprocesses are black-box producers supplied as parameters.
-/

namespace PbipLint

/-- Paths are lists of path components. -/
abbrev PathT := List String

/-- The process-wide mutable flag `SUCCESS` of linter.py (line 23). -/
structure RunState where
  success : Bool
deriving DecidableEq

/-- Severity levels of the `logging` calls used by linter.py. -/
inductive LogLevel
  | info
  | warning
  | error
  | exception
deriving DecidableEq

/-- One emitted log line: its level and its message. -/
structure LogEvent where
  level : LogLevel
  message : String
deriving DecidableEq

/-- Rendering of a path for log messages (Python interpolates `str(path)`;
the platform-specific separator is modelled as `/`). -/
def pathToString (p : PathT) : String := String.intercalate "/" p

/-- Rendering of a rational score inside a log message (stands in for
Python's float formatting, which the claims never inspect). -/
def ratStr (q : ℚ) : String :=
  if q.den = 1 then toString q.num else toString q.num ++ "/" ++ toString q.den

/-- Round-half-to-even to an integer, the tie-breaking CPython's `round`
uses (on the exact rational modelling the float). -/
def round_half_even (q : ℚ) : ℤ :=
  if q - ⌊q⌋ < 1 / 2 then ⌊q⌋
  else if 1 / 2 < q - ⌊q⌋ then ⌊q⌋ + 1
  else if ⌊q⌋ % 2 = 0 then ⌊q⌋ else ⌊q⌋ + 1

/-- Python's `round(q, 2)` on the exact rational value. -/
def round2 (q : ℚ) : ℚ := (round_half_even (q * 100) : ℚ) / 100

/-!
## Filesystem model and the tree scan (linter.py lines 138-174)
-/

/-- The filesystem, as the functions the program queries:
`childNames p` is the list of names of the subdirectories of `p` in
iteration order (`path.iterdir()` filtered by `is_dir()`), `readable p` says
whether `p.iterdir()` succeeds, `platform p` is `none` when no `.platform`
file exists directly in `p` and `some t` when it exists with
`metadata.type = t` (`t = none` when the field is absent), and
`pathExists p` models `path.exists()` for the root arguments of `main`. -/
structure FS where
  childNames : PathT → List String
  readable : PathT → Bool
  platform : PathT → Option (Option String)
  pathExists : PathT → Bool

/-- Check `(path / '.platform').exists()` (linter.py line 148). -/
def hasMarker (fs : FS) (p : PathT) : Bool := (fs.platform p).isSome

/-- Function `get_item_info` (linter.py lines 138-144): read `metadata.type` from the
`.platform` file, `None` when the file is missing. -/
def get_item_info (fs : FS) (p : PathT) : Option String :=
  match fs.platform p with
  | some t => t
  | none => none

/-- The list comprehension of linter.py lines 154-158: scan every
subdirectory in order with the supplied recursive scanner and concatenate
the results; the first raised error propagates (Python evaluates the
comprehension left to right). -/
def scanWith (f : String → Except String (List PathT)) :
    List String → Except String (List PathT)
  | [] => .ok []
  | n :: rest => do
    let first ← f n
    let others ← scanWith f rest
    pure (first ++ others)

/-- Function `list_platform_folders` (linter.py lines 146-160): a folder holding a
`.platform` file is returned as a leaf; otherwise, at depth 0 return
nothing, and otherwise recurse into each subdirectory with one less depth.
Iterating an unreadable directory raises (`iterdir` has no handler in the
source), modelled as `.error "PermissionError"`. -/
def list_platform_folders (fs : FS) : PathT → Nat → Except String (List PathT)
  | path, 0 => if hasMarker fs path then .ok [path] else .ok []
  | path, d + 1 =>
    if hasMarker fs path then .ok [path]
    else if fs.readable path then
      scanWith (fun n => list_platform_folders fs (path ++ [n]) d) (fs.childNames path)
    else .error "PermissionError"

/-- One type bucket of `list_items` (linter.py lines 170-171): the items of
the discovered list whose parent is `folder` and whose declared type is `t`,
in discovery order. -/
def bucketOf (fs : FS) (item_folders : List PathT) (folder : PathT) (t : String) : List PathT :=
  item_folders.filter (fun item => decide (item.dropLast = folder ∧ get_item_info fs item = some t))

/-- The set `holding_folders` (linter.py line 165); Python iterates a set in
unspecified order, modelled here as duplicate-free first-parent order. -/
def holdingFolders (item_folders : List PathT) : List PathT :=
  (item_folders.map List.dropLast).dedup

/-- Function `list_items` (linter.py lines 162-174), with each dict entry rendered as
a (folder, Report bucket, SemanticModel bucket) triple. -/
def list_items (fs : FS) (path : PathT) :
    Except String (List (PathT × List PathT × List PathT)) :=
  (list_platform_folders fs path 5).map (fun item_folders =>
    (holdingFolders item_folders).map (fun folder =>
      (folder, bucketOf fs item_folders folder "Report",
       bucketOf fs item_folders folder "SemanticModel")))

/-- The `items_dict` of `list_items` viewed as the mapping it builds: the
lookup of a container folder yields its two type buckets, `none` for a
folder that is not a holding folder.  Python dict equality compares exactly
this mapping (key set plus per-key values). -/
def items_dict_fun (fs : FS) (item_folders : List PathT) :
    PathT → Option (List PathT × List PathT) :=
  fun folder =>
    if folder ∈ item_folders.map List.dropLast then
      some (bucketOf fs item_folders folder "Report",
            bucketOf fs item_folders folder "SemanticModel")
    else none

/-- Path `a` is an initial segment of `b` (the ancestor-or-equal relation on
paths). -/
def isUnder (a b : PathT) : Prop := b.take a.length = a

instance (a b : PathT) : Decidable (isUnder a b) :=
  inferInstanceAs (Decidable (b.take a.length = a))

/-!
## Visuals-track normalizer `handle_pbii_output` (linter.py lines 67-87)
-/

/-- The `Actual` field of a PBI Inspector finding record: boolean `False`
(check failed entirely) or the sequence of violating objects.  Other shapes
make the Python code raise and are outside the input contract. -/
inductive ActualValue
  | boolFalse
  | items (xs : List String)
deriving DecidableEq

/-- One finding record of the PBI Inspector JSON output. -/
structure Finding where
  logType : Int
  actual : ActualValue
deriving DecidableEq

/-- Severity tiers of findings. -/
inductive Severity
  | error
  | warning
  | info
deriving DecidableEq

/-- Mapping `log_type_mapping.get(LogType, 'info')` (linter.py lines 70 and 74). -/
def logTypeMapping (t : Int) : Severity :=
  if t = 0 then .error else if t = 1 then .warning else .info

/-- Count `result_count` (linter.py line 75): 5 when `Actual` is `False`, else the
length of the sequence. -/
def findingCount (r : Finding) : Nat :=
  match r.actual with
  | .boolFalse => 5
  | .items xs => xs.length

/-- One iteration of the aggregation loop (linter.py lines 73-84) over the
accumulator (errors, warnings, infos, penalty). -/
def pbiiStep (s : Nat × Nat × Nat × Nat) (r : Finding) : Nat × Nat × Nat × Nat :=
  match logTypeMapping r.logType with
  | .error => (s.1 + findingCount r, s.2.1, s.2.2.1, s.2.2.2 + findingCount r * 2)
  | .warning => (s.1, s.2.1 + findingCount r, s.2.2.1, s.2.2.2 + findingCount r)
  | .info => (s.1, s.2.1, s.2.2.1 + findingCount r, s.2.2.2)

/-- The summary dict returned by `handle_pbii_output` (linter.py line 87). -/
structure PbiiSummary where
  errors : Nat
  warnings : Nat
  infos : Nat
  penalty : Nat
  objects : Nat
  score : ℚ
deriving DecidableEq

/-- Function `handle_pbii_output` (linter.py lines 67-87): aggregate the findings and
compute `score = max(10 - penalty / n_visuals * 5, 0) if n_visuals else 0`,
rounded to two decimals. -/
def handle_pbii_output (test_results : List Finding) (n_visuals : Nat) : PbiiSummary :=
  let s := test_results.foldl pbiiStep (0, 0, 0, 0)
  let score : ℚ :=
    if n_visuals = 0 then 0
    else max (10 - ((s.2.2.2 : ℚ) / (n_visuals : ℚ) * 5)) 0
  { errors := s.1, warnings := s.2.1, infos := s.2.2.1, penalty := s.2.2.2,
    objects := n_visuals, score := round2 score }

/-- Count of findings in the error tier (severity code 0), following the
spec's words for the aggregation invariant. -/
def specErrors : List Finding → Nat
  | [] => 0
  | r :: rest => (if r.logType = 0 then findingCount r else 0) + specErrors rest

/-- Count of findings in the warning tier (severity code 1), following the
spec's words. -/
def specWarnings : List Finding → Nat
  | [] => 0
  | r :: rest => (if r.logType = 1 then findingCount r else 0) + specWarnings rest

/-- Count of findings in the info tier (every other severity code),
following the spec's words. -/
def specInfos : List Finding → Nat
  | [] => 0
  | r :: rest =>
    (if r.logType ≠ 0 ∧ r.logType ≠ 1 then findingCount r else 0) + specInfos rest

/-!
## Model-track normalizer `handle_te_output` (linter.py lines 59-65)
-/

/-- JSON values, as parsed by `json.loads`. -/
inductive JValue
  | null
  | bool (b : Bool)
  | num (q : ℚ)
  | str (s : String)
  | arr (elems : List JValue)
  | obj (fields : List (String × JValue))

/-- Whitespace skipped by the JSON grammar. -/
def isJsonWs (c : Char) : Bool :=
  c == ' ' || c == '\n' || c == '\t' || c == '\r'

/-- Skip JSON whitespace. -/
def skipWs (cs : List Char) : List Char := cs.dropWhile isJsonWs

/-- JSON string escapes (the subset without `\u` sequences, which the
program's inputs never use). -/
def escChar (c : Char) : Option Char :=
  if c = '\"' then some '\"'
  else if c = '\\' then some '\\'
  else if c = '/' then some '/'
  else if c = 'n' then some '\n'
  else if c = 't' then some '\t'
  else if c = 'r' then some '\r'
  else none

/-- Parse the body of a JSON string after the opening quote, returning the
decoded characters and the remainder after the closing quote. -/
def parseStringBody : List Char → Option (List Char × List Char)
  | [] => none
  | '\\' :: c :: rest =>
    match escChar c with
    | some e => (parseStringBody rest).map (fun p => (e :: p.1, p.2))
    | none => none
  | c :: rest =>
    if c = '\"' then some ([], rest)
    else (parseStringBody rest).map (fun p => (c :: p.1, p.2))

/-- Take a maximal run of decimal digits, as digit values. -/
def takeDigits : List Char → List Nat × List Char
  | [] => ([], [])
  | c :: rest =>
    if c.isDigit then
      let p := takeDigits rest
      ((c.toNat - 48) :: p.1, p.2)
    else ([], c :: rest)

/-- Value of a digit run. -/
def natFromDigits (ds : List Nat) : Nat := ds.foldl (fun a d => a * 10 + d) 0

/-- Rational value of an integer digit run. -/
def intVal (ds : List Nat) : ℚ := (natFromDigits ds : ℚ)

/-- Rational value of an integer digit run followed by a fractional digit
run. -/
def fracVal (ds fs : List Nat) : ℚ :=
  intVal ds + (natFromDigits fs : ℚ) / (10 : ℚ) ^ fs.length

/-- Parse an unsigned JSON number (integer part and optional fraction; the
exponent form never occurs in the program's inputs). -/
def parseNumberPos (cs : List Char) : Option (ℚ × List Char) :=
  let p := takeDigits cs
  if p.1.isEmpty then none
  else
    match p.2 with
    | '.' :: r2 =>
      let f := takeDigits r2
      if f.1.isEmpty then none
      else some (fracVal p.1 f.1, f.2)
    | _ => some (intVal p.1, p.2)

/-- Parse a JSON number with optional leading minus sign. -/
def parseNumber (cs : List Char) : Option (ℚ × List Char) :=
  match cs with
  | '-' :: r => (parseNumberPos r).map (fun p => (-p.1, p.2))
  | _ => parseNumberPos cs

/-- Parser modes: a value, the fields of an object after its opening brace,
or the elements of an array after its opening bracket. -/
inductive JMode
  | value
  | fields
  | elems

/-- Modelled from the spec: `json.loads` (Python standard library, an
external collaborator of the program).  Recursive-descent JSON parser over
the grammar the spec's extraction rule relies on (objects, arrays, strings,
numbers, booleans, null); `fuel` bounds the recursion depth and is chosen
larger than the input length at the entry point. -/
def parseJ : Nat → JMode → List Char → Option (JValue × List Char)
  | 0, _, _ => none
  | fuel + 1, .value, cs =>
    match skipWs cs with
    | 'n' :: 'u' :: 'l' :: 'l' :: rest => some (.null, rest)
    | 't' :: 'r' :: 'u' :: 'e' :: rest => some (.bool true, rest)
    | 'f' :: 'a' :: 'l' :: 's' :: 'e' :: rest => some (.bool false, rest)
    | '\"' :: rest => (parseStringBody rest).map (fun p => (.str (String.mk p.1), p.2))
    | '\x7b' :: rest =>
      (match skipWs rest with
       | '\x7d' :: r => some (.obj [], r)
       | _ => parseJ fuel .fields rest)
    | '[' :: rest =>
      (match skipWs rest with
       | ']' :: r => some (.arr [], r)
       | _ => parseJ fuel .elems rest)
    | c :: rest =>
      if c == '-' || c.isDigit then (parseNumber (c :: rest)).map (fun p => (.num p.1, p.2))
      else none
    | [] => none
  | fuel + 1, .fields, cs =>
    match skipWs cs with
    | '\"' :: rest => do
      let ks ← parseStringBody rest
      match skipWs ks.2 with
      | ':' :: r2 => do
        let v ← parseJ fuel .value r2
        match skipWs v.2 with
        | ',' :: r4 => do
          let restObj ← parseJ fuel .fields r4
          match restObj.1 with
          | .obj fs2 => some (.obj ((String.mk ks.1, v.1) :: fs2), restObj.2)
          | _ => none
        | '\x7d' :: r4 => some (.obj [(String.mk ks.1, v.1)], r4)
        | _ => none
      | _ => none
    | _ => none
  | fuel + 1, .elems, cs => do
    let v ← parseJ fuel .value cs
    match skipWs v.2 with
    | ',' :: r2 => do
      let restArr ← parseJ fuel .elems r2
      match restArr.1 with
      | .arr vs => some (.arr (v.1 :: vs), restArr.2)
      | _ => none
    | ']' :: r2 => some (.arr [v.1], r2)
    | _ => none

/-- Modelled from the spec: `json.loads` requires the whole text (up to
trailing whitespace) to be one JSON value. -/
def json_loads (cs : List Char) : Option JValue :=
  match parseJ (cs.length + 1) .value cs with
  | some p => if (skipWs p.2).isEmpty then some p.1 else none
  | none => none

/-- The regex search `re.search(r'\x7b.*\x7d', text, re.DOTALL)` of
linter.py line 62: the matched span runs from the first opening brace to the
last closing brace (greedily, across newlines); no match when no closing
brace follows an opening brace. -/
def re_search_braces (cs : List Char) : Option (List Char) :=
  if ((cs.dropWhile (fun c => c != '\x7b')).reverse.dropWhile (fun c => c != '\x7d')).isEmpty
  then none
  else some ((cs.dropWhile (fun c => c != '\x7b')).reverse.dropWhile (fun c => c != '\x7d')).reverse

/-- Function `handle_te_output` (linter.py lines 59-65): extract the brace-delimited
span and parse it as JSON; raise `ValueError` when there is no span
(modelled as the first error) and let `json.loads`'s `JSONDecodeError`
propagate when the span does not parse (the second error). -/
def handle_te_output (stdout : List Char) : Except String JValue :=
  match re_search_braces stdout with
  | some span =>
    match json_loads span with
    | some v => .ok v
    | none => .error "JSONDecodeError"
  | none => .error ("No JSON object found in the output: " ++ String.mk stdout)

/-- The wrapper's `float(linter_results.pop("score"))` applied to a parsed
JSON object (linter.py line 45): remove the `score` key and return its
numeric value together with the remaining fields; `none` models the raised
`KeyError`/`TypeError` for a missing or non-numeric score. -/
def popScore : JValue → Option (ℚ × JValue)
  | .obj fields =>
    match fields.lookup "score" with
    | some (.num q) => some (q, .obj (fields.filter (fun f => !(f.1 == "score"))))
    | _ => none
  | _ => none

/-!
## The reporter `log_linter` (linter.py lines 37-56) and orchestration
-/

/-- The body of the `log_linter` decorator's `wrapper` (linter.py lines
42-56), applied to the outcome of the wrapped producer: `.ok (score,
details)` models a normal return whose `score` entry was popped, `.error e`
models any raised exception.  The wrapper itself always returns normally. -/
def log_linter (fn item : String) (res : Except String (ℚ × String)) (st : RunState) :
    LogEvent × RunState :=
  match res with
  | .ok (score, details) =>
    if score ≥ 8 then
      ({ level := .info,
         message := "\x27" ++ item ++ "\x27 - Score: " ++ ratStr score ++
           " - Excellent! Details: " ++ details }, st)
    else if score ≥ 6 then
      ({ level := .warning,
         message := "\x27" ++ item ++ "\x27 - Score: " ++ ratStr score ++
           " - Needs attention. Details: " ++ details }, st)
    else
      ({ level := .error,
         message := "\x27" ++ item ++ "\x27 - Score: " ++ ratStr score ++
           " - Poor performance. Details: " ++ details }, { success := false })
  | .error e =>
    ({ level := .exception,
       message := fn ++ " on \x27" ++ item ++ "\x27 failed with error: " ++ e },
     { success := false })

/-- Run the wrapped linter on each item of a bucket in order (the loops of
linter.py lines 186-196; the surrounding try/except is dead code because the
wrapper catches every exception). -/
def runItems (fn : String) (env : PathT → Except String (ℚ × String)) :
    List PathT → RunState → RunState × List LogEvent
  | [], st => (st, [])
  | i :: rest, st =>
    let r := log_linter fn (pathToString i) (env i) st
    let rr := runItems fn env rest r.2
    (rr.1, r.1 :: rr.2)

/-- Process one holding folder (linter.py lines 183-196): log the review
line, then the SemanticModel bucket with the model linter, then the Report
bucket with the visuals linter.  `mo` and `vo` are the outcomes of the two
external tool producers per item. -/
def runGroup (mo vo : PathT → Except String (ℚ × String))
    (g : PathT × List PathT × List PathT) (st : RunState) : RunState × List LogEvent :=
  let ev : LogEvent :=
    { level := .info, message := "In \x27" ++ pathToString g.1 ++ "\x27, reviewing." }
  let rm := runItems "model_linter" mo g.2.2 st
  let rv := runItems "visuals_linter" vo g.2.1 rm.1
  (rv.1, ev :: (rm.2 ++ rv.2))

/-- Process every holding folder in order. -/
def runGroups (mo vo : PathT → Except String (ℚ × String)) :
    List (PathT × List PathT × List PathT) → RunState → RunState × List LogEvent
  | [], st => (st, [])
  | g :: rest, st =>
    let r := runGroup mo vo g st
    let rr := runGroups mo vo rest r.1
    (rr.1, r.2 ++ rr.2)

/-- Function `run_linter` (linter.py lines 176-196): list the items (the scan's error
propagates, there is no handler before `main`), warn when nothing was
found, otherwise process every group. -/
def run_linter (fs : FS) (mo vo : PathT → Except String (ℚ × String))
    (path : PathT) (st : RunState) : Except String (RunState × List LogEvent) :=
  match list_items fs path with
  | .error e => .error e
  | .ok groups =>
    if groups.isEmpty then
      .ok (st, [{ level := .warning, message := "No items found at " ++ pathToString path }])
    else .ok (runGroups mo vo groups st)

/-- The error event `main` logs for a missing root path (linter.py line 204). -/
def pathErrorEvent (p : PathT) : LogEvent :=
  { level := .error, message := "Path " ++ pathToString p ++ " does not exist." }

/-- One iteration of `main`'s loop (linter.py lines 202-210): a missing path
is logged as an error (flipping the flag) and skipped; an exception escaping
`run_linter` is caught, logged at exception level and flips the flag. -/
def processPath (fs : FS) (mo vo : PathT → Except String (ℚ × String))
    (st : RunState) (p : PathT) : RunState × List LogEvent :=
  if fs.pathExists p then
    match run_linter fs mo vo p st with
    | .ok r => r
    | .error e => ({ success := false }, [{ level := .exception, message := e }])
  else ({ success := false }, [pathErrorEvent p])

/-- Loop of `main` over the root paths. -/
def mainLoop (fs : FS) (mo vo : PathT → Except String (ℚ × String)) :
    RunState → List PathT → RunState × List LogEvent
  | st, [] => (st, [])
  | st, p :: rest =>
    let r := processPath fs mo vo st p
    let rr := mainLoop fs mo vo r.1 rest
    (rr.1, r.2 ++ rr.2)

/-- Function `main` (linter.py lines 198-210): the given arguments, or the current
directory when none are given, processed with an initially true flag. -/
def pbip_main (fs : FS) (mo vo : PathT → Except String (ℚ × String))
    (argv : List PathT) : RunState × List LogEvent :=
  mainLoop fs mo vo { success := true } (if argv.isEmpty then [["."]] else argv)

/-- Exit status `sys.exit(0 if SUCCESS else 1)` (linter.py line 213). -/
def exitCode (st : RunState) : Nat := if st.success then 0 else 1

/-!
## Concrete filesystems and inputs used by witnesses and counterexamples
-/

/-- A root whose two children both hold a `.platform` marker. -/
def fsB : FS :=
  { childNames := fun p => if p = ["r"] then ["a", "b"] else []
  , readable := fun _ => true
  , platform := fun p =>
      if p = ["r", "a"] then some (some "Report")
      else if p = ["r", "b"] then some (some "SemanticModel")
      else none
  , pathExists := fun _ => true }

/-- A root with an unreadable child `locked` and a readable marked sibling
`s`. -/
def fsC : FS :=
  { childNames := fun p => if p = ["r"] then ["locked", "s"] else []
  , readable := fun p => !(decide (p = ["r", "locked"]))
  , platform := fun p => if p = ["r", "s"] then some (some "Report") else none
  , pathExists := fun p => decide (p = ["r"]) }

/-- Two marked Report items under the same parent folder. -/
def fs7 : FS :=
  { childNames := fun _ => []
  , readable := fun _ => true
  , platform := fun p =>
      if p = ["p", "a"] ∨ p = ["p", "b"] then some (some "Report") else none
  , pathExists := fun _ => true }

/-- A filesystem where only the root path `ok` exists (and holds no items). -/
def fs9 : FS :=
  { childNames := fun _ => []
  , readable := fun _ => true
  , platform := fun _ => none
  , pathExists := fun p => decide (p = ["ok"]) }

/-- A producer outcome that always succeeds with a perfect score. -/
def okProducer : PathT → Except String (ℚ × String) := fun _ => .ok (10, "")

/-- The scenario's JSON span. -/
def scenarioSpan : List Char := "\x7b\"score\": 9.1, \"x\":1\x7d".toList

/-- The scenario's raw model-track output text. -/
def scenarioText : List Char :=
  "noise before \x7b\"score\": 9.1, \"x\":1\x7d noise after".toList

/-- The parsed object of the scenario. -/
def scenarioObj : JValue := .obj [("score", .num (91 / 10)), ("x", .num 1)]

/-!
## Rounding lemmas
-/

theorem round_half_even_nonneg {q : ℚ} (h : 0 ≤ q) : 0 ≤ round_half_even q := by
  unfold round_half_even
  have h0 : (0 : ℤ) ≤ ⌊q⌋ := Int.floor_nonneg.mpr h
  split_ifs <;> omega

theorem round_half_even_le {q : ℚ} {B : ℤ} (h : q ≤ (B : ℚ)) : round_half_even q ≤ B := by
  unfold round_half_even
  have h1 : ⌊q⌋ ≤ B := by
    have := Int.floor_le_floor h
    rwa [Int.floor_intCast] at this
  have hceil : ⌈q⌉ ≤ B := Int.ceil_le.mpr h
  split_ifs with h2 h3 h4
  · exact h1
  · have hlt : (⌊q⌋ : ℚ) < q := by linarith
    have := Int.add_one_le_ceil_iff.mpr hlt
    omega
  · exact h1
  · have hlt : (⌊q⌋ : ℚ) < q := by linarith
    have := Int.add_one_le_ceil_iff.mpr hlt
    omega

theorem round2_zero : round2 0 = 0 := by
  norm_num [round2, round_half_even]

theorem round2_nonneg {q : ℚ} (h : 0 ≤ q) : 0 ≤ round2 q := by
  unfold round2
  have h1 : (0 : ℤ) ≤ round_half_even (q * 100) := round_half_even_nonneg (by positivity)
  have h2 : (0 : ℚ) ≤ (round_half_even (q * 100) : ℚ) := by exact_mod_cast h1
  linarith

theorem round2_le_ten {q : ℚ} (h : q ≤ 10) : round2 q ≤ 10 := by
  unfold round2
  have h1 : q * 100 ≤ ((1000 : ℤ) : ℚ) := by push_cast; linarith
  have h2 : round_half_even (q * 100) ≤ 1000 := round_half_even_le h1
  have h3 : (round_half_even (q * 100) : ℚ) ≤ 1000 := by exact_mod_cast h2
  linarith

/-!
## Aggregation lemmas for `handle_pbii_output`
-/

theorem pbii_foldl (rs : List Finding) : ∀ e w i p : Nat,
    rs.foldl pbiiStep (e, w, i, p) =
      (e + specErrors rs, w + specWarnings rs, i + specInfos rs,
       p + (2 * specErrors rs + specWarnings rs)) := by
  induction rs with
  | nil => intro e w i p; simp [specErrors, specWarnings, specInfos]
  | cons r rest ih =>
    intro e w i p
    simp only [List.foldl_cons]
    by_cases h0 : r.logType = 0
    · rw [show pbiiStep (e, w, i, p) r =
          (e + findingCount r, w, i, p + findingCount r * 2) by
        simp [pbiiStep, logTypeMapping, h0]]
      rw [ih]
      simp [specErrors, specWarnings, specInfos, h0, Prod.ext_iff]
      omega
    · by_cases h1 : r.logType = 1
      · rw [show pbiiStep (e, w, i, p) r =
            (e, w + findingCount r, i, p + findingCount r) by
          simp [pbiiStep, logTypeMapping, h0, h1]]
        rw [ih]
        simp [specErrors, specWarnings, specInfos, h0, h1, Prod.ext_iff]
        omega
      · rw [show pbiiStep (e, w, i, p) r = (e, w, i + findingCount r, p) by
          simp [pbiiStep, logTypeMapping, h0, h1]]
        rw [ih]
        simp [specErrors, specWarnings, specInfos, h0, h1, Prod.ext_iff]
        omega

theorem handle_pbii_fields (rs : List Finding) (n : Nat) :
    handle_pbii_output rs n =
      { errors := specErrors rs, warnings := specWarnings rs, infos := specInfos rs,
        penalty := 2 * specErrors rs + specWarnings rs, objects := n,
        score := round2 (if n = 0 then 0
          else max (10 - (((2 * specErrors rs + specWarnings rs : Nat)) : ℚ) / (n : ℚ) * 5) 0) } := by
  unfold handle_pbii_output
  rw [pbii_foldl]
  simp

/-- C5: the visuals-track aggregation maps severity code 0 to the error
tier, 1 to the warning tier and everything else to the info tier, counts a
boolean-false `Actual` as 5 findings and a sequence as its length, and
accumulates penalty `2 × errors + 1 × warnings` with info findings
contributing nothing; on `[{"LogType": 0, "Actual": false}]` with
objectCount 2 it yields penalty 10 and score 0. -/
theorem pbii_aggregation_spec (rs : List Finding) (n : Nat) :
    (handle_pbii_output rs n).errors = specErrors rs ∧
    (handle_pbii_output rs n).warnings = specWarnings rs ∧
    (handle_pbii_output rs n).infos = specInfos rs ∧
    (handle_pbii_output rs n).penalty = 2 * specErrors rs + specWarnings rs ∧
    handle_pbii_output [{ logType := 0, actual := .boolFalse }] 2 =
      { errors := 5, warnings := 0, infos := 0, penalty := 10, objects := 2, score := 0 } := by
  refine ⟨?_, ?_, ?_, ?_, ?_⟩
  · rw [handle_pbii_fields]
  · rw [handle_pbii_fields]
  · rw [handle_pbii_fields]
  · rw [handle_pbii_fields]
  · rw [handle_pbii_fields]
    have he : specErrors [{ logType := 0, actual := .boolFalse }] = 5 := rfl
    have hw : specWarnings [{ logType := 0, actual := .boolFalse }] = 0 := rfl
    have hi : specInfos [{ logType := 0, actual := .boolFalse }] = 0 := rfl
    rw [he, hw, hi]
    simp
    rw [max_eq_right (by norm_num)]
    exact round2_zero

/-- C1: the visuals-track score is 0 whenever the object count is 0, and for
a positive object count it equals `max(10 - penalty/objectCount * 5, 0)`
rounded to two decimals, hence lies in [0, 10]. -/
theorem pbii_score_bounds (rs : List Finding) (n : Nat) :
    (n = 0 → (handle_pbii_output rs n).score = 0) ∧
    (0 < n →
      (handle_pbii_output rs n).score =
        round2 (max (10 - ((handle_pbii_output rs n).penalty : ℚ) / (n : ℚ) * 5) 0) ∧
      0 ≤ (handle_pbii_output rs n).score ∧ (handle_pbii_output rs n).score ≤ 10) := by
  constructor
  · intro hn
    subst hn
    rw [handle_pbii_fields]
    simp [round2_zero]
  · intro hn
    have hne : n ≠ 0 := hn.ne'
    have hdiv : (0 : ℚ) ≤ (((2 * specErrors rs + specWarnings rs : Nat)) : ℚ) / (n : ℚ) * 5 := by
      positivity
    have hx0 : (0 : ℚ) ≤ max (10 - (((2 * specErrors rs + specWarnings rs : Nat)) : ℚ) / (n : ℚ) * 5) 0 :=
      le_max_right _ _
    have hx10 : max (10 - (((2 * specErrors rs + specWarnings rs : Nat)) : ℚ) / (n : ℚ) * 5) 0 ≤ 10 := by
      apply max_le
      · linarith
      · norm_num
    have hpen : (handle_pbii_output rs n).penalty = 2 * specErrors rs + specWarnings rs := by
      rw [handle_pbii_fields]
    have hsc : (handle_pbii_output rs n).score =
        round2 (max (10 - (((2 * specErrors rs + specWarnings rs : Nat)) : ℚ) / (n : ℚ) * 5) 0) := by
      rw [handle_pbii_fields]
      simp [hne]
    refine ⟨?_, ?_, ?_⟩
    · rw [hsc, hpen]
    · rw [hsc]
      exact round2_nonneg hx0
    · rw [hsc]
      exact round2_le_ten hx10

/-- Witness for C1 at the concrete finding list of the spec's scenario, with
object counts 0 and 2. -/
theorem pbii_score_bounds_app :
    (handle_pbii_output [{ logType := 0, actual := .boolFalse }] 0).score = 0 ∧
    0 ≤ (handle_pbii_output [{ logType := 0, actual := .boolFalse }] 2).score ∧
    (handle_pbii_output [{ logType := 0, actual := .boolFalse }] 2).score ≤ 10 :=
  ⟨(pbii_score_bounds [{ logType := 0, actual := .boolFalse }] 0).1 rfl,
   ((pbii_score_bounds [{ logType := 0, actual := .boolFalse }] 2).2 (by norm_num)).2.1,
   ((pbii_score_bounds [{ logType := 0, actual := .boolFalse }] 2).2 (by norm_num)).2.2⟩

/-!
## The reporter `log_linter`: claims C2 and C3
-/

/-- C2: the reporter's tier boundaries are closed at the lower bound: a
score of exactly 8 is logged at informational level and leaves the run
state unchanged, a score of exactly 6 is logged at warning level and leaves
the run state unchanged, and every score strictly below 6 is logged at
error level and flips the success flag to false. -/
theorem log_linter_tier_boundaries (fn item details : String) (st : RunState) :
    (log_linter fn item (.ok (8, details)) st).1.level = .info ∧
    (log_linter fn item (.ok (8, details)) st).2 = st ∧
    (log_linter fn item (.ok (6, details)) st).1.level = .warning ∧
    (log_linter fn item (.ok (6, details)) st).2 = st ∧
    (∀ q : ℚ, q < 6 →
      (log_linter fn item (.ok (q, details)) st).1.level = .error ∧
      (log_linter fn item (.ok (q, details)) st).2.success = false) := by
  refine ⟨?_, ?_, ?_, ?_, ?_⟩
  · norm_num [log_linter]
  · norm_num [log_linter]
  · norm_num [log_linter]
  · norm_num [log_linter]
  · intro q hq
    have h8 : ¬(q ≥ 8) := by linarith
    have h6 : ¬(q ≥ 6) := by linarith
    constructor
    · simp [log_linter, h8, h6]
    · simp [log_linter, h8, h6]

/-- Witness for C2 at score 599/100 = 5.99 (error tier, flips the flag) and
at score 8 (state unchanged). -/
theorem log_linter_tier_boundaries_app :
    (log_linter "visuals_linter" "item" (.ok (599 / 100, "")) { success := true }).1.level =
      .error ∧
    (log_linter "visuals_linter" "item" (.ok (599 / 100, "")) { success := true }).2.success =
      false ∧
    (log_linter "visuals_linter" "item" (.ok (8, "")) { success := true }).2 =
      { success := true } :=
  ⟨((log_linter_tier_boundaries "visuals_linter" "item" "" { success := true }).2.2.2.2
      (599 / 100) (by norm_num)).1,
   ((log_linter_tier_boundaries "visuals_linter" "item" "" { success := true }).2.2.2.2
      (599 / 100) (by norm_num)).2,
   (log_linter_tier_boundaries "visuals_linter" "item" "" { success := true }).2.1⟩

/-- C3: whatever exception a wrapped producer raises, the reporter catches
it and returns normally, logging an exception-level event whose message
contains the producer name, the item label and the error, and flipping the
success flag to false. -/
theorem log_linter_catches_errors (fn item e : String) (st : RunState) :
    log_linter fn item (.error e) st =
      ({ level := .exception,
         message := fn ++ " on \x27" ++ item ++ "\x27 failed with error: " ++ e },
       { success := false }) := rfl

/-!
## Initial-segment (ancestor) lemmas and the tree-scan invariant
-/

theorem isUnder_refl (l : PathT) : isUnder l l := List.take_length l

theorem isUnder_append (p t : PathT) : isUnder p (p ++ t) := List.take_left p t

theorem isUnder_length {a b : PathT} (h : isUnder a b) : a.length ≤ b.length := by
  unfold isUnder at h
  have h2 := congrArg List.length h
  rw [List.length_take] at h2
  omega

theorem isUnder_trans {a b c : PathT} (hab : isUnder a b) (hbc : isUnder b c) :
    isUnder a c := by
  have hle : a.length ≤ b.length := isUnder_length hab
  unfold isUnder at hab hbc ⊢
  have h1 : List.take a.length c = List.take a.length (List.take b.length c) := by
    rw [List.take_take, min_eq_left hle]
  rw [h1, hbc, hab]

theorem isUnder_eq_of_length {a b c : PathT} (ha : isUnder a c) (hb : isUnder b c)
    (h : a.length = b.length) : a = b := by
  unfold isUnder at ha hb
  rw [← ha, ← hb, h]

theorem isUnder_child_ne {path : PathT} {n m : String} {b : PathT} (hnm : n ≠ m)
    (hn : isUnder (path ++ [n]) b) (hm : isUnder (path ++ [m]) b) : False := by
  have h1 : path ++ [n] = path ++ [m] := isUnder_eq_of_length hn hm (by simp)
  have h2 := List.append_cancel_left h1
  simp at h2
  exact hnm h2

theorem scanWith_cons_ok {f : String → Except String (List PathT)} {n : String}
    {rest : List String} {l : List PathT} (h : scanWith f (n :: rest) = .ok l) :
    ∃ l₁ l₂, f n = .ok l₁ ∧ scanWith f rest = .ok l₂ ∧ l = l₁ ++ l₂ := by
  unfold scanWith at h
  cases hfn : f n with
  | error e => rw [hfn] at h; simp [Bind.bind, Except.bind] at h
  | ok l₁ =>
    rw [hfn] at h
    cases hrest : scanWith f rest with
    | error e => rw [hrest] at h; simp [Bind.bind, Except.bind] at h
    | ok l₂ =>
      rw [hrest] at h
      simp only [Bind.bind, Except.bind, pure, Except.pure, Except.ok.injEq] at h
      exact ⟨l₁, l₂, rfl, rfl, h.symm⟩

theorem scanWith_good {path : PathT} {f : String → Except String (List PathT)}
    (hf : ∀ n l', f n = .ok l' →
      (∀ r ∈ l', isUnder (path ++ [n]) r) ∧
      (∀ a ∈ l', ∀ b ∈ l', a ≠ b → ¬isUnder a b)) :
    ∀ (names : List String) (l : List PathT), scanWith f names = .ok l →
      (∀ r ∈ l, ∃ n ∈ names, ∃ l', f n = .ok l' ∧ r ∈ l') ∧
      (∀ a ∈ l, ∀ b ∈ l, a ≠ b → ¬isUnder a b) := by
  intro names
  induction names with
  | nil =>
    intro l h
    unfold scanWith at h
    simp only [Except.ok.injEq] at h
    subst h
    exact ⟨fun r hr => absurd hr (List.not_mem_nil r), fun a ha => absurd ha (List.not_mem_nil a)⟩
  | cons n rest ih =>
    intro l h
    obtain ⟨l₁, l₂, hfn, hrest, rfl⟩ := scanWith_cons_ok h
    obtain ⟨hmem₂, hnn₂⟩ := ih l₂ hrest
    obtain ⟨hund₁, hnn₁⟩ := hf n l₁ hfn
    constructor
    · intro r hr
      rcases List.mem_append.mp hr with h1 | h2
      · exact ⟨n, List.mem_cons_self n rest, l₁, hfn, h1⟩
      · obtain ⟨m, hm, l', hfm, hr'⟩ := hmem₂ r h2
        exact ⟨m, List.mem_cons_of_mem n hm, l', hfm, hr'⟩
    · intro a ha b hb hab
      rcases List.mem_append.mp ha with ha1 | ha2 <;> rcases List.mem_append.mp hb with hb1 | hb2
      · exact hnn₁ a ha1 b hb1 hab
      · obtain ⟨m, hm, l', hfm, hb'⟩ := hmem₂ b hb2
        by_cases hnm : n = m
        · subst hnm
          have hll : l₁ = l' := by
            have := hfn.symm.trans hfm
            exact Except.ok.inj this
          subst hll
          exact hnn₁ a ha1 b hb' hab
        · intro hu
          exact isUnder_child_ne hnm (isUnder_trans (hund₁ a ha1) hu) ((hf m l' hfm).1 b hb')
      · obtain ⟨m, hm, l', hfm, ha'⟩ := hmem₂ a ha2
        by_cases hnm : n = m
        · subst hnm
          have hll : l₁ = l' := by
            have := hfn.symm.trans hfm
            exact Except.ok.inj this
          subst hll
          exact hnn₁ a ha' b hb1 hab
        · intro hu
          exact isUnder_child_ne (fun hh => hnm hh.symm)
            (isUnder_trans ((hf m l' hfm).1 a ha') hu) (hund₁ b hb1)
      · exact hnn₂ a ha2 b hb2 hab

theorem scan_good (fs : FS) : ∀ (d : Nat) (path : PathT) (l : List PathT),
    list_platform_folders fs path d = .ok l →
    (∀ r ∈ l, isUnder path r) ∧ (∀ a ∈ l, ∀ b ∈ l, a ≠ b → ¬isUnder a b) := by
  intro d
  induction d with
  | zero =>
    intro path l h
    rw [list_platform_folders] at h
    by_cases hm : hasMarker fs path
    · rw [if_pos hm] at h
      obtain rfl : l = [path] := (Except.ok.inj h).symm
      refine ⟨?_, ?_⟩
      · intro r hr
        obtain rfl : r = path := List.mem_singleton.mp hr
        exact isUnder_refl r
      · intro a ha b hb hab
        obtain rfl : a = path := List.mem_singleton.mp ha
        obtain rfl : b = a := List.mem_singleton.mp hb
        exact absurd rfl hab
    · rw [if_neg hm] at h
      obtain rfl : l = [] := (Except.ok.inj h).symm
      exact ⟨fun r hr => absurd hr (List.not_mem_nil r),
             fun a ha => absurd ha (List.not_mem_nil a)⟩
  | succ d ih =>
    intro path l h
    rw [list_platform_folders] at h
    by_cases hm : hasMarker fs path
    · rw [if_pos hm] at h
      obtain rfl : l = [path] := (Except.ok.inj h).symm
      refine ⟨?_, ?_⟩
      · intro r hr
        obtain rfl : r = path := List.mem_singleton.mp hr
        exact isUnder_refl r
      · intro a ha b hb hab
        obtain rfl : a = path := List.mem_singleton.mp ha
        obtain rfl : b = a := List.mem_singleton.mp hb
        exact absurd rfl hab
    · rw [if_neg hm] at h
      by_cases hr : fs.readable path
      · rw [if_pos hr] at h
        have hf : ∀ n l', (fun n => list_platform_folders fs (path ++ [n]) d) n = .ok l' →
            (∀ r ∈ l', isUnder (path ++ [n]) r) ∧
            (∀ a ∈ l', ∀ b ∈ l', a ≠ b → ¬isUnder a b) :=
          fun n l' h' => ih (path ++ [n]) l' h'
        obtain ⟨hmem, hnn⟩ := scanWith_good hf (fs.childNames path) l h
        refine ⟨?_, hnn⟩
        intro r hrm
        obtain ⟨n, _, l', hf', hr'⟩ := hmem r hrm
        exact isUnder_trans (isUnder_append path [n]) ((ih (path ++ [n]) l' hf').1 r hr')
      · rw [if_neg hr] at h
        exact absurd h (by simp)

/-- C8: no two paths returned by the tree scan are in an ancestor or
descendant relationship: a marked folder is a leaf of the search, so no
returned item is nested inside another returned item. -/
theorem scan_no_nesting (fs : FS) (path : PathT) (d : Nat) (l : List PathT)
    (h : list_platform_folders fs path d = .ok l) :
    ∀ a ∈ l, ∀ b ∈ l, a ≠ b → ¬isUnder a b :=
  (scan_good fs d path l h).2

/-- Witness for C8 on a root with two marked children. -/
theorem scan_no_nesting_app : ¬isUnder ["r", "a"] ["r", "b"] :=
  scan_no_nesting fsB ["r"] 3 [["r", "a"], ["r", "b"]] rfl
    ["r", "a"] (by decide) ["r", "b"] (by decide) (by decide)

/-- C10: a directory that directly holds a `.platform` marker is returned
as exactly `[that directory]` for every depth bound, including depth 0: the
marker check precedes the depth check. -/
theorem marker_item_is_leaf (fs : FS) (path : PathT) (d : Nat)
    (h : hasMarker fs path = true) :
    list_platform_folders fs path d = .ok [path] := by
  cases d with
  | zero => simp [list_platform_folders, h]
  | succ d => simp [list_platform_folders, h]

/-- Witness for C10 at depth bound 0 on a marked folder. -/
theorem marker_item_is_leaf_app :
    list_platform_folders fsB ["r", "a"] 0 = .ok [["r", "a"]] :=
  marker_item_is_leaf fsB ["r", "a"] 0 (by decide)

/-!
## Unreadable directories abort the scan (claim C4) and grouping order
sensitivity (claim C7)
-/

/-- C4 counterexample: on a root whose child `locked` is unreadable and
whose child `s` holds a marker, the scan does not return the readable
sibling's item — it aborts with the read error — and running `main` on that
root flips the success flag to false. -/
theorem scan_unreadable_counterexample :
    list_platform_folders fsC ["r"] 3 = .error "PermissionError" ∧
    (pbip_main fsC okProducer okProducer [["r"]]).1.success = false :=
  ⟨rfl, rfl⟩

/-- C4 (amended): iterating an unreadable unmarked directory raises, so the
scan of its whole root aborts with the error; `main` catches the propagated
error, logs a single exception-level event carrying it, and flips the
success flag to false. -/
theorem scan_unreadable_aborts :
    (∀ (fs : FS) (path : PathT) (d : Nat), hasMarker fs path = false →
        fs.readable path = false →
        list_platform_folders fs path (d + 1) = .error "PermissionError") ∧
    (∀ (fs : FS) (mo vo : PathT → Except String (ℚ × String)) (st : RunState)
        (p : PathT) (e : String),
        fs.pathExists p = true → run_linter fs mo vo p st = .error e →
        processPath fs mo vo st p =
          ({ success := false }, [{ level := .exception, message := e }])) := by
  constructor
  · intro fs path d hm hr
    simp [list_platform_folders, hm, hr]
  · intro fs mo vo st p e hex hrl
    simp [processPath, hex, hrl]

/-- Witness for the amended C4 on the concrete filesystem with the
unreadable child. -/
theorem scan_unreadable_aborts_app :
    list_platform_folders fsC ["r", "locked"] 2 = .error "PermissionError" ∧
    processPath fsC okProducer okProducer { success := true } ["r"] =
      ({ success := false }, [{ level := .exception, message := "PermissionError" }]) :=
  ⟨scan_unreadable_aborts.1 fsC ["r", "locked"] 1 (by decide) (by decide),
   scan_unreadable_aborts.2 fsC okProducer okProducer { success := true } ["r"]
     "PermissionError" (by decide) rfl⟩

/-- C7 counterexample: permuting the discovered item list permutes the
bucket lists, so the grouping mapping differs (Python compares the bucket
lists order-sensitively). -/
theorem grouping_order_counterexample :
    items_dict_fun fs7 [["p", "a"], ["p", "b"]] ["p"] ≠
      items_dict_fun fs7 [["p", "b"], ["p", "a"]] ["p"] := by decide

/-- C7 (amended): grouping a permuted item list yields the same holding
folders and, per folder, the same bucket contents with possibly different
bucket order: the mapping is invariant once buckets are compared as
multisets. -/
theorem grouping_perm_invariant (fs : FS) (items items' : List PathT) (folder : PathT)
    (h : items.Perm items') :
    (items_dict_fun fs items folder).map
        (fun bs => ((bs.1 : Multiset PathT), (bs.2 : Multiset PathT))) =
      (items_dict_fun fs items' folder).map
        (fun bs => ((bs.1 : Multiset PathT), (bs.2 : Multiset PathT))) := by
  unfold items_dict_fun
  have hmem : (folder ∈ items.map List.dropLast) ↔ (folder ∈ items'.map List.dropLast) :=
    (h.map List.dropLast).mem_iff
  by_cases hf : folder ∈ items.map List.dropLast
  · rw [if_pos hf, if_pos (hmem.mp hf)]
    unfold bucketOf
    simp only [Option.map_some']
    refine congrArg some (Prod.ext ?_ ?_)
    · exact Multiset.coe_eq_coe.mpr (h.filter _)
    · exact Multiset.coe_eq_coe.mpr (h.filter _)
  · rw [if_neg hf, if_neg (fun hc => hf (hmem.mpr hc))]

/-- Witness for the amended C7 on the two-item permutation. -/
theorem grouping_perm_invariant_app :
    (items_dict_fun fs7 [["p", "a"], ["p", "b"]] ["p"]).map
        (fun bs => ((bs.1 : Multiset PathT), (bs.2 : Multiset PathT))) =
      (items_dict_fun fs7 [["p", "b"], ["p", "a"]] ["p"]).map
        (fun bs => ((bs.1 : Multiset PathT), (bs.2 : Multiset PathT))) :=
  grouping_perm_invariant fs7 [["p", "a"], ["p", "b"]] [["p", "b"], ["p", "a"]] ["p"]
    (List.Perm.swap ["p", "b"] ["p", "a"] [])

/-!
## Extraction of the JSON span (claim C6)
-/

theorem dropWhile_head_false {p : Char → Bool} : ∀ {l : List Char} {c : Char} {r : List Char},
    l.dropWhile p = c :: r → p c = false := by
  intro l
  induction l with
  | nil => intro c r h; simp [List.dropWhile] at h
  | cons x xs ih =>
    intro c r h
    by_cases px : p x = true
    · rw [List.dropWhile_cons_of_pos px] at h
      exact ih h
    · rw [List.dropWhile_cons_of_neg px] at h
      obtain ⟨rfl, -⟩ : x = c ∧ xs = r := by
        injection h with h1 h2
        exact ⟨h1, h2⟩
      exact Bool.eq_false_iff.mpr px

theorem dropWhile_decomp (p : Char → Bool) : ∀ (l : List Char),
    ∃ u, l = u ++ l.dropWhile p ∧ ∀ x ∈ u, p x = true := by
  intro l
  induction l with
  | nil => exact ⟨[], rfl, by simp⟩
  | cons x xs ih =>
    by_cases px : p x = true
    · obtain ⟨u, hu, hall⟩ := ih
      refine ⟨x :: u, ?_, ?_⟩
      · rw [List.dropWhile_cons_of_pos px, List.cons_append, ← hu]
      · intro y hy
        rcases List.mem_cons.mp hy with rfl | hy'
        · exact px
        · exact hall y hy'
    · refine ⟨[], ?_, by simp⟩
      rw [List.dropWhile_cons_of_neg px]
      simp

theorem re_search_decomp (a m b : List Char)
    (ha : '\x7b' ∉ a) (hb : '\x7d' ∉ b)
    (hh : m.head? = some '\x7b') (hl : m.getLast? = some '\x7d') :
    re_search_braces (a ++ m ++ b) = some m := by
  obtain ⟨c, m', rfl⟩ : ∃ c m', m = c :: m' := by
    cases m with
    | nil => simp at hh
    | cons c m' => exact ⟨c, m', rfl⟩
  obtain rfl : c = '\x7b' := by simpa using hh
  have h1 : (a ++ ('\x7b' :: m') ++ b).dropWhile (fun c => c != '\x7b') =
      ('\x7b' :: m') ++ b := by
    rw [List.append_assoc, List.dropWhile_append_of_pos ?_, List.cons_append,
        List.dropWhile_cons_of_neg (by simp)]
    intro x hx
    simp only [bne_iff_ne, ne_eq]
    exact fun hxx => ha (hxx ▸ hx)
  obtain ⟨w, hw⟩ : ∃ w, ('\x7b' :: m').reverse = '\x7d' :: w := by
    have h2 : ('\x7b' :: m').reverse.head? = some '\x7d' := by
      rw [List.head?_reverse]; exact hl
    cases hrw : ('\x7b' :: m').reverse with
    | nil => rw [hrw] at h2; simp at h2
    | cons d w =>
      rw [hrw] at h2
      simp only [List.head?_cons, Option.some.injEq] at h2
      exact ⟨w, by rw [h2]⟩
  have h3 : (('\x7b' :: m') ++ b).reverse.dropWhile (fun c => c != '\x7d') = '\x7d' :: w := by
    rw [List.reverse_append, List.dropWhile_append_of_pos ?_, hw,
        List.dropWhile_cons_of_neg (by simp)]
    intro x hx
    simp only [bne_iff_ne, ne_eq]
    exact fun hxx => hb (hxx ▸ List.mem_reverse.mp hx)
  have h4 : ('\x7d' :: w).reverse = '\x7b' :: m' := by
    rw [← hw, List.reverse_reverse]
  unfold re_search_braces
  rw [h1, h3]
  simp [h4]

/-- C6: the model-track normalizer extracts the span from the first opening
brace to the last closing brace (greedily, across anything between,
ignoring all surrounding noise) and parses it as JSON; a text with no such
span fails with the malformed-output error; the spec's noise scenario
parses to score 9.1 with remaining fields x = 1. -/
theorem handle_te_extraction_spec :
    (∀ a m b : List Char, '\x7b' ∉ a → '\x7d' ∉ b → m.head? = some '\x7b' →
        m.getLast? = some '\x7d' →
        re_search_braces (a ++ m ++ b) = some m ∧
        handle_te_output (a ++ m ++ b) = handle_te_output m) ∧
    (∀ cs : List Char, (∀ x y z : List Char, cs ≠ x ++ '\x7b' :: (y ++ '\x7d' :: z)) →
        handle_te_output cs = .error ("No JSON object found in the output: " ++ String.mk cs)) ∧
    handle_te_output scenarioText = .ok scenarioObj ∧
    popScore scenarioObj = some (91 / 10, JValue.obj [("x", .num 1)]) := by
  refine ⟨?_, ?_, ?_, rfl⟩
  · intro a m b ha hb hh hl
    have h1 := re_search_decomp a m b ha hb hh hl
    have h2 : re_search_braces m = some m := by
      have h5 := re_search_decomp [] m [] (by simp) (by simp) hh hl
      simpa using h5
    refine ⟨h1, ?_⟩
    unfold handle_te_output
    rw [h1, h2]
  · intro cs hno
    cases hs : re_search_braces cs with
    | none => unfold handle_te_output; rw [hs]
    | some span =>
      exfalso
      unfold re_search_braces at hs
      set A := cs.dropWhile (fun c => c != '\x7b') with hA
      set R := A.reverse.dropWhile (fun c => c != '\x7d') with hR
      by_cases hRe : R.isEmpty = true
      · rw [if_pos hRe] at hs
        simp at hs
      · rw [if_neg hRe] at hs
        obtain ⟨d, w, hdw⟩ : ∃ d w, R = d :: w := by
          cases hRc : R with
          | nil => rw [hRc] at hRe; simp at hRe
          | cons d w => exact ⟨d, w, rfl⟩
        have hdrop : A.reverse.dropWhile (fun c => c != '\x7d') = d :: w := by
          rw [← hR, hdw]
        have hd : d = '\x7d' := by simpa using dropWhile_head_false hdrop
        obtain ⟨u₂, hu₂, hallu₂⟩ := dropWhile_decomp (fun c => c != '\x7d') A.reverse
        rw [hdrop] at hu₂
        have hAeq : A = w.reverse ++ d :: u₂.reverse := by
          have h5 := congrArg List.reverse hu₂
          rw [List.reverse_reverse, List.reverse_append, List.reverse_cons,
              List.append_assoc] at h5
          simpa using h5
        obtain ⟨u, hu, hallu⟩ := dropWhile_decomp (fun c => c != '\x7b') cs
        rw [← hA] at hu
        cases hwr : w.reverse with
        | nil =>
          rw [hwr] at hAeq
          simp only [List.nil_append] at hAeq
          have hdb : d = '\x7b' := by
            have h6 : cs.dropWhile (fun c => c != '\x7b') = d :: u₂.reverse := by
              rw [← hA]; exact hAeq
            simpa using dropWhile_head_false h6
          rw [hd] at hdb
          exact absurd hdb (by decide)
        | cons e w' =>
          rw [hwr] at hAeq
          have hAe : A = e :: (w' ++ d :: u₂.reverse) := by simpa using hAeq
          have he : e = '\x7b' := by
            have h6 : cs.dropWhile (fun c => c != '\x7b') = e :: (w' ++ d :: u₂.reverse) := by
              rw [← hA]; exact hAe
            simpa using dropWhile_head_false h6
          exact hno u w' u₂.reverse (by rw [hu, hAe, he, hd])
  · have h1 : re_search_braces scenarioText = some scenarioSpan := rfl
    have h2 : json_loads scenarioSpan =
        some (JValue.obj [("score", .num (fracVal [9] [1])), ("x", .num (intVal [1]))]) := rfl
    have h3 : fracVal [9] [1] = 91 / 10 := by norm_num [fracVal, intVal, natFromDigits]
    have h4 : intVal [1] = 1 := by norm_num [intVal, natFromDigits]
    have h5 : json_loads scenarioSpan = some scenarioObj := by
      rw [h2, h3, h4]
      rfl
    unfold handle_te_output
    rw [h1]
    change (match json_loads scenarioSpan with
      | some v => (Except.ok v : Except String JValue)
      | none => Except.error "JSONDecodeError") = Except.ok scenarioObj
    rw [h5]

/-- Witness for C6: the scenario decomposition satisfies the extraction
hypotheses, and a brace-free text has no span. -/
theorem handle_te_extraction_spec_app :
    re_search_braces ("noise before ".toList ++ scenarioSpan ++ " noise after".toList) =
      some scenarioSpan ∧
    handle_te_output "x".toList =
      .error ("No JSON object found in the output: " ++ String.mk "x".toList) := by
  constructor
  · exact (handle_te_extraction_spec.1 "noise before ".toList scenarioSpan
      " noise after".toList (by decide) (by decide) (by decide) (by decide)).1
  · refine handle_te_extraction_spec.2.1 "x".toList ?_
    intro x y z he
    have hm : '\x7b' ∈ "x".toList := by rw [he]; simp
    exact absurd hm (by decide)

/-!
## State threading through the orchestration (claim C9)

The flag mutations of linter.py only ever set `SUCCESS` to false, so the
events a run emits do not depend on the incoming flag, and the outgoing
flag is the conjunction of the incoming flag with the run's own verdict.
-/

theorem log_linter_st (fn item : String) (r : Except String (ℚ × String)) (st : RunState) :
    (log_linter fn item r st).1 = (log_linter fn item r { success := true }).1 ∧
    (log_linter fn item r st).2.success =
      (st.success && (log_linter fn item r { success := true }).2.success) := by
  cases r with
  | ok p =>
    obtain ⟨q, det⟩ := p
    by_cases h8 : q ≥ 8
    · simp [log_linter, h8]
    · by_cases h6 : q ≥ 6
      · simp [log_linter, h8, h6]
      · simp [log_linter, h8, h6]
  | error e => simp [log_linter]

theorem runItems_st (fn : String) (env : PathT → Except String (ℚ × String)) :
    ∀ (items : List PathT) (st : RunState),
    (runItems fn env items st).2 = (runItems fn env items { success := true }).2 ∧
    (runItems fn env items st).1.success =
      (st.success && (runItems fn env items { success := true }).1.success) := by
  intro items
  induction items with
  | nil => intro st; simp [runItems]
  | cons i rest ih =>
    intro st
    simp only [runItems]
    have h1 := log_linter_st fn (pathToString i) (env i) st
    constructor
    · rw [h1.1, (ih ((log_linter fn (pathToString i) (env i) st).2)).1,
          (ih ((log_linter fn (pathToString i) (env i) { success := true }).2)).1]
    · rw [(ih ((log_linter fn (pathToString i) (env i) st).2)).2,
          (ih ((log_linter fn (pathToString i) (env i) { success := true }).2)).2,
          h1.2, Bool.and_assoc]

theorem runGroup_st (mo vo : PathT → Except String (ℚ × String))
    (g : PathT × List PathT × List PathT) (st : RunState) :
    (runGroup mo vo g st).2 = (runGroup mo vo g { success := true }).2 ∧
    (runGroup mo vo g st).1.success =
      (st.success && (runGroup mo vo g { success := true }).1.success) := by
  simp only [runGroup]
  have hm := runItems_st "model_linter" mo g.2.2 st
  constructor
  · rw [hm.1, (runItems_st "visuals_linter" vo g.2.1 ((runItems "model_linter" mo g.2.2 st).1)).1,
        (runItems_st "visuals_linter" vo g.2.1
          ((runItems "model_linter" mo g.2.2 { success := true }).1)).1]
  · rw [(runItems_st "visuals_linter" vo g.2.1 ((runItems "model_linter" mo g.2.2 st).1)).2,
        (runItems_st "visuals_linter" vo g.2.1
          ((runItems "model_linter" mo g.2.2 { success := true }).1)).2,
        hm.2, Bool.and_assoc]

theorem runGroups_st (mo vo : PathT → Except String (ℚ × String)) :
    ∀ (groups : List (PathT × List PathT × List PathT)) (st : RunState),
    (runGroups mo vo groups st).2 = (runGroups mo vo groups { success := true }).2 ∧
    (runGroups mo vo groups st).1.success =
      (st.success && (runGroups mo vo groups { success := true }).1.success) := by
  intro groups
  induction groups with
  | nil => intro st; simp [runGroups]
  | cons g rest ih =>
    intro st
    simp only [runGroups]
    have h1 := runGroup_st mo vo g st
    constructor
    · rw [h1.1, (ih ((runGroup mo vo g st).1)).1,
          (ih ((runGroup mo vo g { success := true }).1)).1]
    · rw [(ih ((runGroup mo vo g st).1)).2,
          (ih ((runGroup mo vo g { success := true }).1)).2, h1.2, Bool.and_assoc]

theorem run_linter_st (fs : FS) (mo vo : PathT → Except String (ℚ × String))
    (p : PathT) (st : RunState) :
    run_linter fs mo vo p st =
      (run_linter fs mo vo p { success := true }).map
        (fun r => ({ success := st.success && r.1.success }, r.2)) := by
  unfold run_linter
  cases hli : list_items fs p with
  | error e => simp [Except.map]
  | ok groups =>
    by_cases hg : groups.isEmpty
    · simp [hg, Except.map]
    · simp only [hg, if_false, Bool.false_eq_true, Except.map]
      have h := runGroups_st mo vo groups st
      refine congrArg Except.ok (Prod.ext ?_ h.1)
      exact congrArg (fun bb => ({ success := bb } : RunState)) h.2

theorem processPath_st (fs : FS) (mo vo : PathT → Except String (ℚ × String))
    (st : RunState) (p : PathT) :
    (processPath fs mo vo st p).2 = (processPath fs mo vo { success := true } p).2 ∧
    (processPath fs mo vo st p).1.success =
      (st.success && (processPath fs mo vo { success := true } p).1.success) := by
  unfold processPath
  by_cases hex : fs.pathExists p
  · rw [if_pos hex, if_pos hex, run_linter_st fs mo vo p st]
    cases hrl : run_linter fs mo vo p { success := true } with
    | error e => simp [Except.map]
    | ok r => simp [Except.map]
  · rw [if_neg hex, if_neg hex]
    simp

theorem mainLoop_append (fs : FS) (mo vo : PathT → Except String (ℚ × String)) :
    ∀ (xs ys : List PathT) (st : RunState),
    mainLoop fs mo vo st (xs ++ ys) =
      ((mainLoop fs mo vo (mainLoop fs mo vo st xs).1 ys).1,
       (mainLoop fs mo vo st xs).2 ++ (mainLoop fs mo vo (mainLoop fs mo vo st xs).1 ys).2) := by
  intro xs
  induction xs with
  | nil => intro ys st; simp [mainLoop]
  | cons x rest ih =>
    intro ys st
    simp only [List.cons_append, mainLoop]
    simp only [List.append_eq]
    rw [ih]
    simp [List.append_assoc]

theorem mainLoop_st (fs : FS) (mo vo : PathT → Except String (ℚ × String)) :
    ∀ (ps : List PathT) (st : RunState),
    (mainLoop fs mo vo st ps).2 = (mainLoop fs mo vo { success := true } ps).2 ∧
    (mainLoop fs mo vo st ps).1.success =
      (st.success && (mainLoop fs mo vo { success := true } ps).1.success) := by
  intro ps
  induction ps with
  | nil => intro st; simp [mainLoop]
  | cons p rest ih =>
    intro st
    simp only [mainLoop]
    have h1 := processPath_st fs mo vo st p
    constructor
    · rw [h1.1, (ih ((processPath fs mo vo st p).1)).1,
          (ih ((processPath fs mo vo { success := true } p).1)).1]
    · rw [(ih ((processPath fs mo vo st p).1)).2,
          (ih ((processPath fs mo vo { success := true } p).1)).2, h1.2, Bool.and_assoc]

/-- C9: a root path that does not exist is logged as a single error event
and skipped, the flag flips to false, every sibling path's processing and
log output are unaffected, and the exit status is 1. -/
theorem main_missing_path_skipped (fs : FS) (mo vo : PathT → Except String (ℚ × String))
    (a b : List PathT) (p : PathT) (h : fs.pathExists p = false) :
    (pbip_main fs mo vo (a ++ p :: b)).2 =
      (mainLoop fs mo vo { success := true } a).2 ++
        pathErrorEvent p :: (mainLoop fs mo vo { success := true } b).2 ∧
    (pbip_main fs mo vo (a ++ p :: b)).1.success = false ∧
    exitCode (pbip_main fs mo vo (a ++ p :: b)).1 = 1 := by
  have hne : (a ++ p :: b).isEmpty = false := by cases a <;> simp
  have hmain : pbip_main fs mo vo (a ++ p :: b) =
      mainLoop fs mo vo { success := true } (a ++ p :: b) := by
    unfold pbip_main
    simp [hne]
  have hp : processPath fs mo vo (mainLoop fs mo vo { success := true } a).1 p =
      ({ success := false }, [pathErrorEvent p]) := by
    simp [processPath, h]
  have hstep : mainLoop fs mo vo (mainLoop fs mo vo { success := true } a).1 (p :: b) =
      ((mainLoop fs mo vo { success := false } b).1,
       pathErrorEvent p :: (mainLoop fs mo vo { success := false } b).2) := by
    simp only [mainLoop]
    rw [hp]
    simp
  have hb2 : (mainLoop fs mo vo { success := false } b).2 =
      (mainLoop fs mo vo { success := true } b).2 := (mainLoop_st fs mo vo b _).1
  have hbs : (mainLoop fs mo vo { success := false } b).1.success = false := by
    rw [(mainLoop_st fs mo vo b _).2]
    simp
  have hall : pbip_main fs mo vo (a ++ p :: b) =
      ((mainLoop fs mo vo { success := false } b).1,
       (mainLoop fs mo vo { success := true } a).2 ++
         pathErrorEvent p :: (mainLoop fs mo vo { success := false } b).2) := by
    rw [hmain, mainLoop_append fs mo vo a (p :: b) { success := true }, hstep]
  refine ⟨?_, ?_, ?_⟩
  · rw [hall, hb2]
  · rw [hall]
    exact hbs
  · rw [hall]
    simp [exitCode, hbs]

/-- Witness for C9: one existing root and one missing root; the run ends
unsuccessfully with exit code 1. -/
theorem main_missing_path_skipped_app :
    (pbip_main fs9 okProducer okProducer [["ok"], ["missing"]]).1.success = false ∧
    exitCode (pbip_main fs9 okProducer okProducer [["ok"], ["missing"]]).1 = 1 := by
  have h := main_missing_path_skipped fs9 okProducer okProducer [["ok"]] [] ["missing"]
    (by decide)
  exact ⟨h.2.1, h.2.2⟩

end PbipLint
